import Mathlib

/-!
Shallow embedding of the weather-aggregator core (aggregator.go) and the
data model (models package).  Go float64 values are modelled as rationals
(ℚ); the finite-double range is captured by the exact value of
math.MaxFloat64, which the source uses as the initial min/max sentinel.
Go time instants are modelled as integers; durations as integers in the
same unit.  The nondeterministic completion order of the concurrent
provider calls is modelled by quantifying over the list of per-call
outcomes in completion order, and the nondeterministic Go map iteration
order in mostFrequent by quantifying over the tally iteration order.
-/

namespace WeatherAgg

/-- models.WeatherData: one provider's report (a Reading). -/
structure WeatherData where
  provider : String
  location : String
  temperature : ℚ
  feelsLike : ℚ
  humidity : ℤ
  pressure : ℤ
  windSpeed : ℚ
  windDirection : ℤ
  description : String
  icon : String
  sunrise : ℤ
  sunset : ℤ
  timestamp : ℤ
  units : String
deriving Repr, DecidableEq

/-- models.AggregatedValue: {Average, Min, Max, Values}. -/
structure AggregatedValue where
  average : ℚ
  min : ℚ
  max : ℚ
  values : List ℚ
deriving Repr, DecidableEq

/-- models.AggregatedWeather: the unit stored in cache and returned to callers. -/
structure AggregatedWeather where
  location : String
  temperature : AggregatedValue
  feelsLike : AggregatedValue
  humidity : AggregatedValue
  pressure : AggregatedValue
  windSpeed : AggregatedValue
  description : String
  providers : List String
  lastUpdated : ℤ
deriving Repr, DecidableEq

/-- math.MaxFloat64 = 2^1024 - 2^971, the largest finite float64, exactly. -/
def maxFloat64 : ℚ := 2 ^ 1024 - 2 ^ 971

/-- aggregateValues (aggregator.go 148-173): one pass accumulating sum, min
and max, with min seeded at math.MaxFloat64 and max at -math.MaxFloat64;
an empty input returns the zero value models.AggregatedValue{}. -/
def aggregateValues (values : List ℚ) : AggregatedValue :=
  if values = [] then ⟨0, 0, 0, []⟩
  else
    let r := values.foldl
      (fun acc v =>
        (acc.1 + v, if v < acc.2.1 then v else acc.2.1,
         if v > acc.2.2 then v else acc.2.2))
      ((0 : ℚ), maxFloat64, -maxFloat64)
    ⟨r.1 / (values.length : ℚ), r.2.1, r.2.2, values⟩

/-- The frequency tally freq[v] built by mostFrequent: occurrence count of v. -/
def freqCount (values : List String) (v : String) : ℕ :=
  values.count v

/-- The selection loop of mostFrequent (aggregator.go 182-189): scan the
tally keys in iteration order, keeping the first key whose count strictly
exceeds the running maximum (which starts at 0, with result the zero-value
string). -/
def mostFrequentLoop (values : List String) : List String → ℕ → String → String
  | [], _, result => result
  | v :: rest, maxFreq, result =>
    if freqCount values v > maxFreq then
      mostFrequentLoop values rest (freqCount values v) v
    else
      mostFrequentLoop values rest maxFreq result

/-- mostFrequent with an explicit tally iteration order: Go map iteration
order is unspecified, so theorems quantify over every order that enumerates
exactly the distinct keys of the tally. -/
def mostFrequentOrder (order values : List String) : String :=
  mostFrequentLoop values order 0 ""

/-- mostFrequent (aggregator.go 176-192) at one concrete admissible
iteration order (first occurrence order); used where a deterministic
function is needed (aggregateWeather). -/
def mostFrequent (values : List String) : String :=
  mostFrequentOrder values.dedup values

/-- aggregateWeather (aggregator.go 113-145): builds the AggregatedWeather
from the successful readings, in the order they were collected. -/
def aggregateWeather (data : List WeatherData) (city country : String)
    (now : ℤ) : AggregatedWeather :=
  { location := city ++ ", " ++ country
    temperature := aggregateValues (data.map (·.temperature))
    feelsLike := aggregateValues (data.map (·.feelsLike))
    humidity := aggregateValues (data.map (fun d => (d.humidity : ℚ)))
    pressure := aggregateValues (data.map (fun d => (d.pressure : ℚ)))
    windSpeed := aggregateValues (data.map (·.windSpeed))
    description := mostFrequent (data.map (·.description))
    providers := data.map (·.provider)
    lastUpdated := now }

/-- Outcome of one dispatched provider goroutine (aggregator.go 61-76):
either the select observed ctx.Done and sent the bare context error, or
p.GetWeather failed and the error was sent wrapped as "name: cause", or it
succeeded and the reading was sent to the results channel. -/
inductive CallOutcome where
  | cancelled (ctxErr : String)
  | fetchErr (cause : String)
  | success (w : WeatherData)
deriving Repr, DecidableEq

/-- One dispatched call, tagged with the provider's registered name, in
completion order. -/
structure Call where
  name : String
  outcome : CallOutcome
deriving Repr, DecidableEq

/-- The reading a call contributed to the results channel, if any. -/
def callResult : Call → Option WeatherData
  | ⟨_, .success w⟩ => some w
  | _ => none

/-- The message a call contributed to the errors channel, if any: a fetch
failure is wrapped with the provider's name (fmt.Errorf "%s: %w"), while
the ctx.Done branch sends ctx.Err() bare. -/
def callError : Call → Option String
  | ⟨_, .cancelled e⟩ => some e
  | ⟨n, .fetchErr c⟩ => some (n ++ ": " ++ c)
  | _ => none

/-- Error outcomes of GetWeather (aggregator.go 50-101). -/
inductive AggError where
  | noProviders
  | allProvidersFailed (msgs : List String)
  | emptyResultSet
deriving Repr, DecidableEq

/-- cacheEntry (aggregator.go 21-24): cached data and creation timestamp. -/
structure CacheEntry where
  data : AggregatedWeather
  timestamp : ℤ
deriving Repr, DecidableEq

/-- Aggregator state: the registered provider names, the cache map, and the
fixed TTL. -/
structure Aggregator where
  providers : List String
  cache : String → Option CacheEntry
  cacheTTL : ℤ

/-- The cache key (aggregator.go 43): fmt.Sprintf "%s,%s" — exact
concatenation, no normalization. -/
def cacheKey (city country : String) : String :=
  city ++ "," ++ country

/-- getFromCache (aggregator.go 195-210): read-only lookup; a missing key
and an entry older than the TTL (strictly) both report not found. -/
def getFromCache (a : Aggregator) (now : ℤ) (key : String) :
    Option AggregatedWeather :=
  match a.cache key with
  | none => none
  | some entry => if now - entry.timestamp > a.cacheTTL then none else some entry.data

/-- saveToCache (aggregator.go 213-221): map assignment, overwriting any
prior entry under the key, stamped with the current time. -/
def saveToCache (a : Aggregator) (now : ℤ) (key : String)
    (d : AggregatedWeather) : Aggregator :=
  { a with cache := fun k => if k = key then some ⟨d, now⟩ else a.cache k }

/-- ClearCache (aggregator.go 224-229): replaces the map with a fresh
empty one. -/
def ClearCache (a : Aggregator) : Aggregator :=
  { a with cache := fun _ => none }

/-- What one call to GetWeather produces: the returned value or error, the
aggregator state afterwards, and the number of provider calls dispatched
(the observable network activity). -/
structure GetWeatherResult where
  result : Except AggError AggregatedWeather
  state : Aggregator
  providerCalls : ℕ

/-- GetWeather (aggregator.go 42-110).  `calls` lists the dispatched
provider calls in channel completion order; on the cache-hit and
no-providers paths nothing is dispatched.  The results and errors channels
drain to the successes and error messages in that order. -/
def GetWeather (a : Aggregator) (now : ℤ) (city country : String)
    (calls : List Call) : GetWeatherResult :=
  let key := cacheKey city country
  match getFromCache a now key with
  | some cached => ⟨.ok cached, a, 0⟩
  | none =>
    if a.providers = [] then ⟨.error .noProviders, a, 0⟩
    else
      let weatherData := calls.filterMap callResult
      let errs := calls.filterMap callError
      if weatherData = [] then
        if errs = [] then ⟨.error .emptyResultSet, a, calls.length⟩
        else ⟨.error (.allProvidersFailed errs), a, calls.length⟩
      else
        let aggregated := aggregateWeather weatherData city country now
        ⟨.ok aggregated, saveToCache a now key aggregated, calls.length⟩

/-- Reference reducer, written from the spec's words (§4.3): empty input
yields the zero result; otherwise average is sum divided by count at full
precision, min and max are the exact minimum and maximum, and values is
the input unchanged. -/
def aggregateNumericSpec (values : List ℚ) : AggregatedValue :=
  match values with
  | [] => ⟨0, 0, 0, []⟩
  | v :: vs => ⟨(v :: vs).sum / ((v :: vs).length : ℚ),
      vs.foldl min v, vs.foldl max v, v :: vs⟩

/-- Whether an error message carries a provider-name tag in the code's
fmt.Errorf "%s: %w" format, i.e. starts with the name followed by ": ". -/
def taggedWith (name msg : String) : Bool :=
  (name ++ ": ").data.isPrefixOf msg.data

/-- A concrete reading, used to instantiate theorems. -/
def rParis : WeatherData :=
  ⟨"OpenWeatherMap", "Paris, FR", 10, 9, 50, 1000, 5, 90, "sunny", "icon",
   0, 0, 0, "metric"⟩

/-- A concrete aggregated result, used to instantiate theorems. -/
def wParis : AggregatedWeather :=
  ⟨"Paris, FR", ⟨7, 7, 7, [7]⟩, ⟨6, 6, 6, [6]⟩, ⟨50, 50, 50, [50]⟩,
   ⟨1000, 1000, 1000, [1000]⟩, ⟨5, 5, 5, [5]⟩, "sunny", ["OpenWeatherMap"], 0⟩

/-- Aggregator with two registered providers and an empty cache, TTL 600. -/
def aggTwo : Aggregator := ⟨["OpenWeatherMap", "WeatherAPI"], fun _ => none, 600⟩

/-- Aggregator with one provider and one cached entry under "Paris,FR"
created at time 0, TTL 600. -/
def aggCached : Aggregator :=
  ⟨["OpenWeatherMap"], fun k => if k = "Paris,FR" then some ⟨wParis, 0⟩ else none, 600⟩

/-- Aggregator with one provider "A" and an empty cache, TTL 600. -/
def aggOne : Aggregator := ⟨["A"], fun _ => none, 600⟩

/-- A concrete reading from provider "A", for the key-collision scenario. -/
def rCollide : WeatherData :=
  ⟨"A", "a,b, c", 10, 9, 50, 1000, 5, 90, "cloudy", "i", 0, 0, 0, "metric"⟩

/-- First call of the key-collision scenario: cache miss on city "a,b",
country "c", with one successful provider call. -/
def firstCollideCall : GetWeatherResult :=
  GetWeather aggOne 0 "a,b" "c" [⟨"A", .success rCollide⟩]

/-- Concrete completion-ordered calls with exactly one success. -/
def callsMixed : List Call :=
  [⟨"WeatherAPI", .fetchErr "timeout"⟩, ⟨"OpenWeatherMap", .success rParis⟩]

/-- Concrete completion-ordered calls where every provider fails, one of
them by observing cancellation before dispatch. -/
def callsFail : List Call :=
  [⟨"OpenWeatherMap", .fetchErr "timeout"⟩, ⟨"WeatherAPI", .cancelled "context canceled"⟩]

/-! Helper lemmas about the embedded operations. -/

/-- The one-pass accumulation in aggregateValues splits into the sum and
the min/max folds over the input. -/
theorem foldl_sum_min_max (l : List ℚ) (s m M : ℚ) :
    l.foldl (fun acc v => (acc.1 + v, if v < acc.2.1 then v else acc.2.1,
        if v > acc.2.2 then v else acc.2.2)) (s, m, M)
      = (s + l.sum, l.foldl min m, l.foldl max M) := by
  induction l generalizing s m M with
  | nil => simp
  | cons v t ih =>
    have hmin : (if v < m then v else m) = min m v := by
      rcases lt_or_le v m with h | h
      · rw [if_pos h, min_eq_right h.le]
      · rw [if_neg (not_lt.mpr h), min_eq_left h]
    have hmax : (if v > M then v else M) = max M v := by
      rcases lt_or_le M v with h | h
      · rw [if_pos h, max_eq_right h.le]
      · rw [if_neg (not_lt.mpr h), max_eq_left h]
    simp only [List.foldl_cons, List.sum_cons, ih, hmin, hmax]
    rw [add_assoc]

/-- On inputs within the finite-double range, the source's sentinel-seeded
one-pass loop agrees with the reference reducer. -/
theorem aggregateValues_eq_spec (values : List ℚ)
    (h : ∀ v ∈ values, -maxFloat64 ≤ v ∧ v ≤ maxFloat64) :
    aggregateValues values = aggregateNumericSpec values := by
  match values with
  | [] => rfl
  | v :: vs =>
    have hv := h v (List.mem_cons_self v vs)
    simp only [aggregateValues, if_neg (List.cons_ne_nil v vs)]
    rw [foldl_sum_min_max, List.foldl_cons, List.foldl_cons,
      min_eq_right hv.2, max_eq_right hv.1]
    simp only [aggregateNumericSpec, zero_add]

/-- aggregateValues of a singleton within the finite-double range is that
value in every field. -/
theorem aggregateValues_single (v : ℚ) (h1 : -maxFloat64 ≤ v)
    (h2 : v ≤ maxFloat64) : aggregateValues [v] = ⟨v, v, v, [v]⟩ := by
  have hall : ∀ u ∈ ([v] : List ℚ), -maxFloat64 ≤ u ∧ u ≤ maxFloat64 := by
    intro u hu
    rw [List.mem_singleton] at hu
    subst hu
    exact ⟨h1, h2⟩
  rw [aggregateValues_eq_spec [v] hall]
  norm_num [aggregateNumericSpec]

/-- Each dispatched call contributes exactly one outcome, to exactly one of
the two channels. -/
theorem calls_partition (calls : List Call) :
    (calls.filterMap callResult).length + (calls.filterMap callError).length
      = calls.length := by
  induction calls with
  | nil => rfl
  | cons c t ih =>
    rcases c with ⟨n, o⟩
    cases o <;> simp [List.filterMap_cons, callResult, callError] <;> omega

/-- The selection loop of mostFrequent: starting from a running maximum
bounded by the current result's count, it returns something whose count
dominates the running maximum and every scanned key, and which is either
the initial result or one of the scanned keys. -/
theorem mostFrequentLoop_spec (values : List String) (ord : List String) :
    ∀ (m : ℕ) (r : String), m ≤ freqCount values r →
      m ≤ freqCount values (mostFrequentLoop values ord m r)
      ∧ (∀ v ∈ ord, freqCount values v
          ≤ freqCount values (mostFrequentLoop values ord m r))
      ∧ (mostFrequentLoop values ord m r = r
          ∨ mostFrequentLoop values ord m r ∈ ord) := by
  induction ord with
  | nil =>
    intro m r hmr
    exact ⟨hmr, by simp, Or.inl rfl⟩
  | cons v rest ih =>
    intro m r hmr
    by_cases hv : freqCount values v > m
    · obtain ⟨h1, h2, h3⟩ := ih (freqCount values v) v le_rfl
      rw [mostFrequentLoop, if_pos hv]
      refine ⟨le_trans hv.le h1, ?_, ?_⟩
      · intro u hu
        rcases List.mem_cons.mp hu with rfl | hu
        · exact h1
        · exact h2 u hu
      · rcases h3 with h | h
        · exact Or.inr (by rw [h]; exact List.mem_cons_self v rest)
        · exact Or.inr (List.mem_cons_of_mem v h)
    · obtain ⟨h1, h2, h3⟩ := ih m r hmr
      rw [mostFrequentLoop, if_neg hv]
      refine ⟨h1, ?_, ?_⟩
      · intro u hu
        rcases List.mem_cons.mp hu with rfl | hu
        · exact le_trans (not_lt.mp hv) h1
        · exact h2 u hu
      · rcases h3 with h | h
        · exact Or.inl h
        · exact Or.inr (List.mem_cons_of_mem v h)

/-- mostFrequent of a one-element list is that element. -/
theorem mostFrequent_single (d : String) : mostFrequent [d] = d := by
  have hded : ([d] : List String).dedup = [d] := by
    rw [List.dedup_cons_of_not_mem (List.not_mem_nil d), List.dedup_nil]
  have hcnt : freqCount [d] d = 1 := by
    simp [freqCount, List.count_singleton]
  rw [mostFrequent, hded, mostFrequentOrder, mostFrequentLoop, hcnt,
    if_pos Nat.one_pos, mostFrequentLoop]

/-- A char list is a prefix of itself followed by anything, in the Boolean
sense used by taggedWith. -/
theorem isPrefixOf_append_self (l t : List Char) : l.isPrefixOf (l ++ t) = true := by
  induction l with
  | nil => simp [List.isPrefixOf]
  | cons c cs ih => simp [List.isPrefixOf, ih]

/-- GetWeather on a fresh cache entry: the hit path returns it with no
dispatch and no state change. -/
theorem GetWeather_hit (a : Aggregator) (now : ℤ) (city country : String)
    (calls : List Call) (w : AggregatedWeather)
    (hhit : getFromCache a now (cacheKey city country) = some w) :
    GetWeather a now city country calls = ⟨.ok w, a, 0⟩ := by
  simp only [GetWeather, hhit]

/-- GetWeather on a cache miss with at least one success: returns the
aggregate of the collected successes and stores it under the key. -/
theorem GetWeather_miss_success (a : Aggregator) (now : ℤ) (city country : String)
    (calls : List Call)
    (hmiss : getFromCache a now (cacheKey city country) = none)
    (hprov : a.providers ≠ [])
    (hne : calls.filterMap callResult ≠ []) :
    GetWeather a now city country calls =
      ⟨.ok (aggregateWeather (calls.filterMap callResult) city country now),
       saveToCache a now (cacheKey city country)
         (aggregateWeather (calls.filterMap callResult) city country now),
       calls.length⟩ := by
  simp only [GetWeather, hmiss, if_neg hprov, if_neg hne]

/-- GetWeather on a cache miss with zero successes and at least one
captured error: fails with the aggregated error list. -/
theorem GetWeather_miss_allfail (a : Aggregator) (now : ℤ) (city country : String)
    (calls : List Call)
    (hmiss : getFromCache a now (cacheKey city country) = none)
    (hprov : a.providers ≠ [])
    (hres : calls.filterMap callResult = [])
    (herr : calls.filterMap callError ≠ []) :
    GetWeather a now city country calls =
      ⟨.error (.allProvidersFailed (calls.filterMap callError)), a, calls.length⟩ := by
  simp only [GetWeather, hmiss, if_neg hprov, if_pos hres, if_neg herr]

/-! The claim theorems. -/

/-- C3: after put(k, v), get(k) returns v field-for-field while the age
does not exceed the TTL, reports not found as soon as the age strictly
exceeds it, reports not found for a key never stored, and the stored entry
itself lingers in the map (get is a pure read and never evicts). -/
theorem cache_ttl_roundtrip (a : Aggregator) (k : String)
    (v : AggregatedWeather) (t₀ t₁ : ℤ) :
    (t₁ - t₀ ≤ a.cacheTTL → getFromCache (saveToCache a t₀ k v) t₁ k = some v)
    ∧ (t₁ - t₀ > a.cacheTTL → getFromCache (saveToCache a t₀ k v) t₁ k = none)
    ∧ (a.cache k = none → getFromCache a t₁ k = none)
    ∧ (saveToCache a t₀ k v).cache k = some ⟨v, t₀⟩ := by
  have hc : (saveToCache a t₀ k v).cache k = some ⟨v, t₀⟩ := by
    simp [saveToCache]
  have httl : (saveToCache a t₀ k v).cacheTTL = a.cacheTTL := rfl
  refine ⟨?_, ?_, ?_, hc⟩
  · intro h
    simp only [getFromCache, hc, httl]
    rw [if_neg (not_lt.mpr h)]
  · intro h
    simp only [getFromCache, hc, httl]
    rw [if_pos h]
  · intro h
    simp only [getFromCache, h]

/-- Witness for C3 at a concrete aggregator, key, value and times. -/
theorem cache_ttl_roundtrip_witness :
    getFromCache (saveToCache aggTwo 0 "Paris,FR" wParis) 60 "Paris,FR" = some wParis
    ∧ getFromCache (saveToCache aggTwo 0 "Paris,FR" wParis) 1000 "Paris,FR" = none
    ∧ getFromCache aggTwo 60 "Paris,FR" = none :=
  ⟨(cache_ttl_roundtrip aggTwo "Paris,FR" wParis 0 60).1 (by decide),
   (cache_ttl_roundtrip aggTwo "Paris,FR" wParis 0 1000).2.1 (by decide),
   (cache_ttl_roundtrip aggTwo "Paris,FR" wParis 0 60).2.2.1 rfl⟩

/-- C8: after ClearCache, get reports not found for every key at every
time, and the map itself holds nothing: all entries are discarded at once. -/
theorem ClearCache_get_none (a : Aggregator) (key : String) (now : ℤ) :
    getFromCache (ClearCache a) now key = none
    ∧ (ClearCache a).cache key = none :=
  ⟨rfl, rfl⟩

/-- C4: aggregateValues agrees with the reference reducer from the spec:
the empty input yields the zero result exactly, and every input whose
values lie in the finite-double range yields mean, exact min, exact max
and the unchanged input sequence. -/
theorem aggregateValues_matches_spec :
    aggregateValues [] = ⟨0, 0, 0, []⟩
    ∧ ∀ values : List ℚ, (∀ v ∈ values, -maxFloat64 ≤ v ∧ v ≤ maxFloat64) →
        aggregateValues values = aggregateNumericSpec values :=
  ⟨rfl, aggregateValues_eq_spec⟩

/-- Witness for C4 at the concrete input [10, 20]. -/
theorem aggregateValues_matches_spec_witness :
    (∀ v ∈ ([10, 20] : List ℚ), -maxFloat64 ≤ v ∧ v ≤ maxFloat64)
    ∧ aggregateValues [10, 20] = aggregateNumericSpec [10, 20] := by
  have hb : ∀ v ∈ ([10, 20] : List ℚ), -maxFloat64 ≤ v ∧ v ≤ maxFloat64 := by
    have h20 : (20 : ℚ) ≤ maxFloat64 := by norm_num [maxFloat64]
    have hm : (-maxFloat64 : ℚ) ≤ 0 := by norm_num [maxFloat64]
    intro v hv
    rcases List.mem_cons.mp hv with rfl | hv
    · exact ⟨by linarith, by linarith⟩
    · rw [List.mem_singleton] at hv
      subst hv
      exact ⟨by linarith, h20⟩
  exact ⟨hb, aggregateValues_matches_spec.2 [10, 20] hb⟩

/-- C5: for every tally iteration order that enumerates exactly the
distinct input values, the returned value has maximal occurrence count in
a non-empty input; on the concrete input with the unique maximum "rain"
every admissible order returns "rain"; the empty input returns "". -/
theorem mostFrequent_max_count (values ord : List String)
    (hnd : ord.Nodup) (hmem : ∀ v, v ∈ ord ↔ v ∈ values) :
    (values ≠ [] → ∀ w ∈ values,
        freqCount values w ≤ freqCount values (mostFrequentOrder ord values))
    ∧ (values = ["rain", "rain", "sun"] → mostFrequentOrder ord values = "rain")
    ∧ mostFrequent [] = "" := by
  obtain ⟨h0, hmax, hself⟩ := mostFrequentLoop_spec values ord 0 "" (Nat.zero_le _)
  refine ⟨fun _ w hw => hmax w ((hmem w).mpr hw), ?_, rfl⟩
  rintro rfl
  have h2 : 2 ≤ freqCount ["rain", "rain", "sun"]
      (mostFrequentOrder ord ["rain", "rain", "sun"]) := by
    have hr := hmax "rain" ((hmem "rain").mpr (by decide))
    have : freqCount ["rain", "rain", "sun"] "rain" = 2 := by decide
    rw [this] at hr
    exact hr
  rcases hself with h | h
  · rw [mostFrequentOrder] at h2
    rw [h] at h2
    exact absurd h2 (by decide)
  · have hv : mostFrequentOrder ord ["rain", "rain", "sun"] ∈
        (["rain", "rain", "sun"] : List String) := (hmem _).mp h
    have hcases : mostFrequentOrder ord ["rain", "rain", "sun"] = "rain"
        ∨ mostFrequentOrder ord ["rain", "rain", "sun"] = "sun" := by
      simpa using hv
    rcases hcases with h' | h'
    · exact h'
    · rw [h'] at h2
      exact absurd h2 (by decide)

/-- Witness for C5 at values ["rain","rain","sun"] and order ["rain","sun"]. -/
theorem mostFrequent_max_count_witness :
    (["rain", "sun"] : List String).Nodup
    ∧ (["rain", "rain", "sun"] : List String) ≠ []
    ∧ freqCount ["rain", "rain", "sun"] "sun"
        ≤ freqCount ["rain", "rain", "sun"]
            (mostFrequentOrder ["rain", "sun"] ["rain", "rain", "sun"])
    ∧ mostFrequentOrder ["rain", "sun"] ["rain", "rain", "sun"] = "rain"
    ∧ mostFrequent [] = "" := by
  have hnd : (["rain", "sun"] : List String).Nodup := by decide
  have hmem : ∀ v, v ∈ (["rain", "sun"] : List String)
      ↔ v ∈ (["rain", "rain", "sun"] : List String) := by
    intro v
    simp only [List.mem_cons, List.mem_singleton, List.not_mem_nil, or_false]
    tauto
  obtain ⟨h1, h2, h3⟩ :=
    mostFrequent_max_count ["rain", "rain", "sun"] ["rain", "sun"] hnd hmem
  exact ⟨hnd, by decide, h1 (by decide) "sun" (by decide), h2 rfl, h3⟩

/-- C6 counterexample: two distinct (city, country) pairs that produce the
identical cache key, refuting that any character difference in the pair
yields a different key. -/
theorem cacheKey_counterexample :
    cacheKey "a,b" "c" = cacheKey "a" "b,c"
    ∧ (("a,b", "c") : String × String) ≠ ("a", "b,c") :=
  ⟨by decide, by decide⟩

/-- C6 amended: the key is the exact concatenation city ++ "," ++ country
with no normalization, and it is injective in each component separately:
with the country fixed, any difference in city (casing or whitespace
included) changes the key, and symmetrically with the city fixed. -/
theorem cacheKey_exact_componentwise (city country c₁ c₂ c k k₁ k₂ : String) :
    cacheKey city country = city ++ "," ++ country
    ∧ (cacheKey c₁ k = cacheKey c₂ k → c₁ = c₂)
    ∧ (cacheKey c k₁ = cacheKey c k₂ → k₁ = k₂) := by
  refine ⟨rfl, ?_, ?_⟩
  · intro h
    have hd := congrArg String.data h
    simp only [cacheKey, String.data_append, List.append_assoc] at hd
    exact String.ext (List.append_cancel_right hd)
  · intro h
    have hd := congrArg String.data h
    simp only [cacheKey, String.data_append, List.append_assoc] at hd
    exact String.ext (List.append_cancel_left (List.append_cancel_left hd))

/-- Witness for C6 amended at concrete components. -/
theorem cacheKey_exact_componentwise_witness :
    cacheKey "Paris" "FR" = "Paris" ++ "," ++ "FR"
    ∧ ("Paris" : String) = "Paris"
    ∧ ("FR" : String) = "FR" :=
  ⟨(cacheKey_exact_componentwise "Paris" "FR" "Paris" "Paris" "x" "FR" "y" "z").1,
   (cacheKey_exact_componentwise "Paris" "FR" "Paris" "Paris" "x" "FR" "y" "z").2.1 rfl,
   (cacheKey_exact_componentwise "Paris" "FR" "x" "x" "Lyon" "k" "FR" "FR").2.2 rfl⟩

/-- C10: the public keying is not injective: city "a,b" with country "c"
and city "a" with country "b,c" share the key "a,b,c", so within the TTL
the second call returns the aggregate cached by the first and dispatches
zero provider calls. -/
theorem cacheKey_collision_scenario :
    cacheKey "a,b" "c" = "a,b,c"
    ∧ cacheKey "a" "b,c" = "a,b,c"
    ∧ (("a,b", "c") : String × String) ≠ ("a", "b,c")
    ∧ firstCollideCall.result = .ok (aggregateWeather [rCollide] "a,b" "c" 0)
    ∧ firstCollideCall.providerCalls = 1
    ∧ (GetWeather firstCollideCall.state 60 "a" "b,c" []).result
        = firstCollideCall.result
    ∧ (GetWeather firstCollideCall.state 60 "a" "b,c" []).providerCalls = 0 :=
  ⟨by decide, by decide, by decide, rfl, rfl, rfl, rfl⟩

/-- C7: on a non-stale cached entry, GetWeather returns the stored
AggregatedWeather itself, dispatches zero provider calls, and leaves the
aggregator state (in particular the cache) unchanged. -/
theorem GetWeather_cache_hit (a : Aggregator) (now : ℤ) (city country : String)
    (calls : List Call) (w : AggregatedWeather)
    (hhit : getFromCache a now (cacheKey city country) = some w) :
    (GetWeather a now city country calls).result = .ok w
    ∧ (GetWeather a now city country calls).providerCalls = 0
    ∧ (GetWeather a now city country calls).state = a := by
  rw [GetWeather_hit a now city country calls w hhit]
  exact ⟨rfl, rfl, rfl⟩

/-- Witness for C7: a cached Paris entry of age 60 with TTL 600 is served
as stored, with zero provider calls. -/
theorem GetWeather_cache_hit_witness :
    getFromCache aggCached 60 (cacheKey "Paris" "FR") = some wParis
    ∧ (GetWeather aggCached 60 "Paris" "FR" []).result = .ok wParis
    ∧ (GetWeather aggCached 60 "Paris" "FR" []).providerCalls = 0
    ∧ (GetWeather aggCached 60 "Paris" "FR" []).state = aggCached :=
  ⟨rfl, (GetWeather_cache_hit aggCached 60 "Paris" "FR" [] wParis rfl).1,
   (GetWeather_cache_hit aggCached 60 "Paris" "FR" [] wParis rfl).2.1,
   (GetWeather_cache_hit aggCached 60 "Paris" "FR" [] wParis rfl).2.2⟩

/-- C1: on a cache miss with providers registered, any success makes
GetWeather succeed with the aggregate over exactly the collected
successful readings; with exactly one success whose numeric fields are
finite doubles, every aggregated field is that reading's value and the
providers list is exactly that reading's provider name. -/
theorem GetWeather_mixed_success (a : Aggregator) (now : ℤ)
    (city country : String) (calls : List Call)
    (hmiss : getFromCache a now (cacheKey city country) = none)
    (hprov : a.providers ≠ []) :
    (calls.filterMap callResult ≠ [] →
      (GetWeather a now city country calls).result
        = .ok (aggregateWeather (calls.filterMap callResult) city country now))
    ∧ (∀ w : WeatherData, calls.filterMap callResult = [w] →
        -maxFloat64 ≤ w.temperature → w.temperature ≤ maxFloat64 →
        -maxFloat64 ≤ w.feelsLike → w.feelsLike ≤ maxFloat64 →
        -maxFloat64 ≤ (w.humidity : ℚ) → (w.humidity : ℚ) ≤ maxFloat64 →
        -maxFloat64 ≤ (w.pressure : ℚ) → (w.pressure : ℚ) ≤ maxFloat64 →
        -maxFloat64 ≤ w.windSpeed → w.windSpeed ≤ maxFloat64 →
        (GetWeather a now city country calls).result = .ok
          { location := city ++ ", " ++ country
            temperature := ⟨w.temperature, w.temperature, w.temperature, [w.temperature]⟩
            feelsLike := ⟨w.feelsLike, w.feelsLike, w.feelsLike, [w.feelsLike]⟩
            humidity := ⟨(w.humidity : ℚ), (w.humidity : ℚ), (w.humidity : ℚ), [(w.humidity : ℚ)]⟩
            pressure := ⟨(w.pressure : ℚ), (w.pressure : ℚ), (w.pressure : ℚ), [(w.pressure : ℚ)]⟩
            windSpeed := ⟨w.windSpeed, w.windSpeed, w.windSpeed, [w.windSpeed]⟩
            description := w.description
            providers := [w.provider]
            lastUpdated := now }) := by
  constructor
  · intro hne
    rw [GetWeather_miss_success a now city country calls hmiss hprov hne]
  · intro w hw t1 t2 f1 f2 u1 u2 p1 p2 s1 s2
    rw [GetWeather_miss_success a now city country calls hmiss hprov
      (by rw [hw]; exact List.cons_ne_nil w [])]
    rw [hw]
    simp only [aggregateWeather, List.map_cons, List.map_nil,
      aggregateValues_single _ t1 t2, aggregateValues_single _ f1 f2,
      aggregateValues_single _ u1 u2, aggregateValues_single _ p1 p2,
      aggregateValues_single _ s1 s2, mostFrequent_single]

/-- Witness for C1: two providers, one fetch failure and one success; the
result is built from the single successful reading alone. -/
theorem GetWeather_mixed_success_witness :
    getFromCache aggTwo 0 (cacheKey "Paris" "FR") = none
    ∧ aggTwo.providers ≠ []
    ∧ callsMixed.filterMap callResult = [rParis]
    ∧ (GetWeather aggTwo 0 "Paris" "FR" callsMixed).result = .ok
        { location := "Paris" ++ ", " ++ "FR"
          temperature := ⟨10, 10, 10, [10]⟩
          feelsLike := ⟨9, 9, 9, [9]⟩
          humidity := ⟨50, 50, 50, [50]⟩
          pressure := ⟨1000, 1000, 1000, [1000]⟩
          windSpeed := ⟨5, 5, 5, [5]⟩
          description := "sunny"
          providers := ["OpenWeatherMap"]
          lastUpdated := 0 } := by
  have hb1 : -maxFloat64 ≤ rParis.temperature := by norm_num [rParis, maxFloat64]
  have hb2 : rParis.temperature ≤ maxFloat64 := by norm_num [rParis, maxFloat64]
  have hb3 : -maxFloat64 ≤ rParis.feelsLike := by norm_num [rParis, maxFloat64]
  have hb4 : rParis.feelsLike ≤ maxFloat64 := by norm_num [rParis, maxFloat64]
  have hb5 : -maxFloat64 ≤ (rParis.humidity : ℚ) := by norm_num [rParis, maxFloat64]
  have hb6 : (rParis.humidity : ℚ) ≤ maxFloat64 := by norm_num [rParis, maxFloat64]
  have hb7 : -maxFloat64 ≤ (rParis.pressure : ℚ) := by norm_num [rParis, maxFloat64]
  have hb8 : (rParis.pressure : ℚ) ≤ maxFloat64 := by norm_num [rParis, maxFloat64]
  have hb9 : -maxFloat64 ≤ rParis.windSpeed := by norm_num [rParis, maxFloat64]
  have hb10 : rParis.windSpeed ≤ maxFloat64 := by norm_num [rParis, maxFloat64]
  have h := (GetWeather_mixed_success aggTwo 0 "Paris" "FR" callsMixed rfl
    (by decide)).2 rParis rfl hb1 hb2 hb3 hb4 hb5 hb6 hb7 hb8 hb9 hb10
  refine ⟨rfl, by decide, rfl, ?_⟩
  rw [h]
  norm_num [rParis]

/-- C2 counterexample: one provider, whose goroutine observes cancellation
before dispatch; GetWeather fails with one message, the bare context
error, which is not tagged with the provider's name — refuting that every
captured failure, a cancellation included, carries the provider tag. -/
theorem GetWeather_cancelled_untagged :
    (GetWeather aggOne 0 "Paris" "FR" [⟨"A", .cancelled "context canceled"⟩]).result
      = .error (.allProvidersFailed ["context canceled"])
    ∧ taggedWith "A" "context canceled" = false :=
  ⟨rfl, by decide⟩

/-- C2 amended: on a cache miss with N ≥ 1 providers all failing,
GetWeather fails with AllProvidersFailed carrying exactly N messages; a
fetch failure is captured tagged "name: cause", while a cancellation
observed before dispatch is captured as the bare context error. -/
theorem GetWeather_all_failed (a : Aggregator) (now : ℤ)
    (city country : String) (calls : List Call)
    (hmiss : getFromCache a now (cacheKey city country) = none)
    (hprov : a.providers ≠ [])
    (hlen : calls.length = a.providers.length)
    (hfail : ∀ c ∈ calls, callResult c = none) :
    (GetWeather a now city country calls).result
      = .error (.allProvidersFailed (calls.filterMap callError))
    ∧ (calls.filterMap callError).length = a.providers.length
    ∧ (∀ c ∈ calls, ∀ m, c.outcome = .fetchErr m →
        callError c = some (c.name ++ ": " ++ m)
        ∧ taggedWith c.name (c.name ++ ": " ++ m) = true)
    ∧ (∀ c ∈ calls, ∀ e, c.outcome = .cancelled e → callError c = some e) := by
  have hres : calls.filterMap callResult = [] :=
    List.filterMap_eq_nil_iff.mpr hfail
  have hpart := calls_partition calls
  rw [hres] at hpart
  simp only [List.length_nil, zero_add] at hpart
  have herrlen : (calls.filterMap callError).length = a.providers.length := by
    rw [hpart, hlen]
  have herr : calls.filterMap callError ≠ [] := by
    intro hnil
    rw [hnil] at herrlen
    exact hprov (List.length_eq_zero.mp herrlen.symm)
  rw [GetWeather_miss_allfail a now city country calls hmiss hprov hres herr]
  refine ⟨rfl, herrlen, ?_, ?_⟩
  · rintro ⟨n, o⟩ hc m rfl
    refine ⟨rfl, ?_⟩
    show ((n ++ ": ").data.isPrefixOf ((n ++ ": " ++ m)).data) = true
    rw [String.data_append (n ++ ": ") m]
    exact isPrefixOf_append_self _ _
  · rintro ⟨n, o⟩ hc e rfl
    rfl

/-- Witness for C2 amended: two providers, a tagged fetch failure and a
bare cancellation, producing exactly two messages. -/
theorem GetWeather_all_failed_witness :
    getFromCache aggTwo 0 (cacheKey "Paris" "FR") = none
    ∧ aggTwo.providers ≠ []
    ∧ callsFail.length = aggTwo.providers.length
    ∧ (∀ c ∈ callsFail, callResult c = none)
    ∧ (GetWeather aggTwo 0 "Paris" "FR" callsFail).result
        = .error (.allProvidersFailed ["OpenWeatherMap: timeout", "context canceled"])
    ∧ (callsFail.filterMap callError).length = aggTwo.providers.length := by
  have h := GetWeather_all_failed aggTwo 0 "Paris" "FR" callsFail rfl
    (by decide) rfl (by decide)
  exact ⟨rfl, by decide, rfl, by decide, by rw [h.1]; rfl, h.2.1⟩

/-- C9: on a cache miss with at least one registered provider and one
dispatched call per provider, zero successes force at least one captured
error, so the EmptyResultSet branch is unreachable. -/
theorem GetWeather_not_emptyResultSet (a : Aggregator) (now : ℤ)
    (city country : String) (calls : List Call)
    (hmiss : getFromCache a now (cacheKey city country) = none)
    (hprov : a.providers ≠ [])
    (hlen : calls.length = a.providers.length) :
    (calls.filterMap callResult = [] → calls.filterMap callError ≠ [])
    ∧ (GetWeather a now city country calls).result ≠ .error .emptyResultSet := by
  have hkey : ∀ _ : calls.filterMap callResult = [],
      calls.filterMap callError ≠ [] := by
    intro hres herr
    have hpart := calls_partition calls
    rw [hres, herr] at hpart
    simp only [List.length_nil, add_zero] at hpart
    rw [hlen] at hpart
    exact hprov (List.length_eq_zero.mp hpart.symm)
  refine ⟨hkey, ?_⟩
  by_cases hres : calls.filterMap callResult = []
  · rw [GetWeather_miss_allfail a now city country calls hmiss hprov hres
      (hkey hres)]
    simp
  · rw [GetWeather_miss_success a now city country calls hmiss hprov hres]
    simp

/-- Witness for C9: one provider, one failing call, result is the
aggregated failure, not EmptyResultSet. -/
theorem GetWeather_not_emptyResultSet_witness :
    getFromCache aggOne 0 (cacheKey "Paris" "FR") = none
    ∧ aggOne.providers ≠ []
    ∧ ([⟨"A", .fetchErr "boom"⟩] : List Call).length = aggOne.providers.length
    ∧ (GetWeather aggOne 0 "Paris" "FR" [⟨"A", .fetchErr "boom"⟩]).result
        ≠ .error .emptyResultSet :=
  ⟨rfl, by decide, rfl,
   (GetWeather_not_emptyResultSet aggOne 0 "Paris" "FR"
     [⟨"A", .fetchErr "boom"⟩] rfl (by decide) rfl).2⟩

end WeatherAgg
